import Mathlib

/-!
Shallow embedding of `src/accounts/userservice/db.py` (`UserDb`): a thin
data-access layer over a single `users` table, with operations `add_user`,
`generate_accountid` and `get_user`.

Modelling choices:
  * a row / field mapping is an association list `List (String × Value)`,
    looked up dict-style (first binding wins);
  * the relational engine is external to the module; its statement semantics
    (uniqueness constraints, NOT NULL checks, first-row selects) is modelled
    from the spec and from the `users` table schema declared in the source;
  * infrastructure failures (connection loss etc.) are an oracle
    `fail : Nat → Option DbError` indexed by the global count of statement
    executions: `fail k = some e` means the `k`-th execution raises `e`;
  * Python's `str` on an integer is `natStr`, decimal notation;
  * the unbounded `while` loop of `generate_accountid` is given explicit
    fuel; running out of fuel yields the distinguished result `Except.ok none`
    ("the loop is still running"), a normal return is `Except.ok (some s)`;
  * tracing spans are modelled only where a claim needs them: the event
    trace records connection checkouts/releases, statement executions with
    the connection they ran on, and the retry span event of
    `generate_accountid` together with the `accountid` attribute value it
    carries.
-/

/-- A SQL value as stored in a column: `NULL`, a string, a byte string
(`passhash`), or a date (`birthday`). -/
inductive Value where
  | null : Value
  | str : String → Value
  | bytes : List Nat → Value
  | date : Nat → Nat → Nat → Value
deriving DecidableEq, Repr

/-- A field mapping / table row: an association list from column name to
value, looked up like a Python dict (first binding wins). -/
abbrev Row := List (String × Value)

/-- Dict-style lookup of a column in a field mapping. -/
def lookupField (r : Row) (c : String) : Option Value :=
  match r.find? (fun p => p.fst == c) with
  | some p => some p.snd
  | none => none

/-- One column of the `users` table as declared in `UserDb.__init__`:
name, primary-key flag, unique flag, nullable flag. -/
structure ColumnSpec where
  name : String
  primaryKey : Bool
  uniqueCol : Bool
  nullable : Bool
deriving DecidableEq, Repr

/-- The `users` table schema from the source: `accountid` is the primary key
(hence not nullable), `username` is unique and not null, every other column
is not null. -/
def usersTableColumns : List ColumnSpec :=
  [⟨"accountid", true, false, false⟩,
   ⟨"username", false, true, false⟩,
   ⟨"passhash", false, false, false⟩,
   ⟨"firstname", false, false, false⟩,
   ⟨"lastname", false, false, false⟩,
   ⟨"birthday", false, false, false⟩,
   ⟨"timezone", false, false, false⟩,
   ⟨"address", false, false, false⟩,
   ⟨"state", false, false, false⟩,
   ⟨"zip", false, false, false⟩,
   ⟨"ssn", false, false, false⟩]

/-- The names of the `users` columns. -/
def colNames : List String := usersTableColumns.map ColumnSpec.name

/-- Names of the columns that may not be null (all eleven). -/
def notNullColumns : List String :=
  (usersTableColumns.filter (fun c => !c.nullable)).map ColumnSpec.name

/-- Errors surfaced by statement execution, following the spec taxonomy:
uniqueness violations are the distinguished `duplicateKey`; NOT NULL and
unknown-column violations are query-level failures; `infra k` stands for an
arbitrary infrastructure failure (connection loss, timeout, ...). -/
inductive DbError where
  | duplicateKey : DbError
  | notNullViolation : DbError
  | unknownColumn : DbError
  | infra : Nat → DbError
deriving DecidableEq, Repr

/-- A statement as built by the module: `users_table.insert().values(user)`,
`users_table.select().where(c.accountid == a)`, or
`users_table.select().where(c.username == u)`. -/
inductive Stmt where
  | insertUsers : Row → Stmt
  | selectByAccountId : String → Stmt
  | selectByUsername : String → Stmt
deriving DecidableEq, Repr

/-- Whether a value option is present and non-null. -/
def isNotNull : Option Value → Bool
  | some Value.null => false
  | some _ => true
  | none => false

/-- Whether row `r` holds string `v` in column `c` (the `==` comparison the
select statements use). -/
def rowMatchesStr (c v : String) (r : Row) : Bool :=
  lookupField r c == some (Value.str v)

/-- The relational engine's INSERT semantics over the `users` schema,
modelled from the spec: unknown column names are rejected when the statement
is compiled, a missing or NULL not-null column violates NOT NULL, a clash on
`accountid` (primary key) or `username` (unique) is the distinguished
duplicate-key error, and otherwise the row is appended. -/
def insertRow (t : List Row) (u : Row) : Except DbError (List Row) :=
  if !(u.all (fun p => colNames.contains p.fst)) then Except.error DbError.unknownColumn
  else if !(notNullColumns.all (fun c => isNotNull (lookupField u c))) then
    Except.error DbError.notNullViolation
  else if t.any (fun r => lookupField r "accountid" == lookupField u "accountid") then
    Except.error DbError.duplicateKey
  else if t.any (fun r => lookupField r "username" == lookupField u "username") then
    Except.error DbError.duplicateKey
  else Except.ok (t ++ [u])

/-- Healthy execution of one statement against a table: an insert updates the
table or fails, a select returns the first matching row (`.first()`). -/
def runStmt (t : List Row) : Stmt → Except DbError (Option Row × List Row)
  | Stmt.insertUsers u =>
    match insertRow t u with
    | Except.error e => Except.error e
    | Except.ok t2 => Except.ok (none, t2)
  | Stmt.selectByAccountId a => Except.ok (t.find? (rowMatchesStr "accountid" a), t)
  | Stmt.selectByUsername un => Except.ok (t.find? (rowMatchesStr "username" un), t)

/-- An entry of the observable trace: connection checkout/release, execution
of a statement on a connection, or the "Account ID exists, retrying" span
event of `generate_accountid`, with the value its `accountid` attribute
carries. -/
inductive Event where
  | checkout : Nat → Event
  | release : Nat → Event
  | exec : Nat → Stmt → Event
  | retrySpanEvent : Option String → Event
deriving DecidableEq, Repr

/-- The world state threaded through the operations: the table, the next
connection-checkout id, the global statement-execution counter (index into
the failure oracle), and the event trace. -/
structure St where
  table : List Row
  conns : Nat
  execs : Nat
  events : List Event
deriving DecidableEq, Repr

/-- Execution of `conn.execute(s)` on connection `cid`: consult the failure oracle for
this execution index, then run the statement against the table. -/
def execStmt (fail : Nat → Option DbError) (cid : Nat) (s : Stmt) (st : St) :
    Except DbError (Option Row) × St :=
  let st1 : St := { st with execs := st.execs + 1, events := st.events ++ [Event.exec cid s] }
  match fail st.execs with
  | some e => (Except.error e, st1)
  | none =>
    match runStmt st.table s with
    | Except.error e => (Except.error e, st1)
    | Except.ok (r, t2) => (Except.ok r, { st1 with table := t2 })

/-- Embedding of `UserDb.add_user(user)`: build `insert().values(user)` with the mapping
unchanged, check out a connection, execute, release; a `SQLAlchemyError` is
re-raised unchanged. -/
def add_user (fail : Nat → Option DbError) (user : Row) (st : St) :
    Except DbError Unit × St :=
  let statement := Stmt.insertUsers user
  let cid := st.conns
  let st1 : St := { st with conns := st.conns + 1, events := st.events ++ [Event.checkout cid] }
  let p := execStmt fail cid statement st1
  let st2 : St := { p.snd with events := p.snd.events ++ [Event.release cid] }
  match p.fst with
  | Except.error e => (Except.error e, st2)
  | Except.ok _ => (Except.ok (), st2)

/-- Embedding of `UserDb.get_user(username)`: select the first row whose `username` column
equals the argument; return `dict(result)` if a row was found, `None`
otherwise; a `SQLAlchemyError` is re-raised unchanged. -/
def get_user (fail : Nat → Option DbError) (username : String) (st : St) :
    Except DbError (Option Row) × St :=
  let statement := Stmt.selectByUsername username
  let cid := st.conns
  let st1 : St := { st with conns := st.conns + 1, events := st.events ++ [Event.checkout cid] }
  let p := execStmt fail cid statement st1
  let st2 : St := { p.snd with events := p.snd.events ++ [Event.release cid] }
  match p.fst with
  | Except.error e => (Except.error e, st2)
  | Except.ok r => (Except.ok r, st2)

/-- Decimal digit characters of `n`, most significant first; the fuel
argument makes the recursion structural and is instantiated with `n` itself,
which always suffices. -/
def natStrCore : Nat → Nat → List Char
  | 0, _ => []
  | fuel+1, n =>
    if n = 0 then [] else natStrCore fuel (n / 10) ++ [Char.ofNat (48 + n % 10)]

/-- Python's `str` on a non-negative integer: its decimal notation. -/
def natStr (n : Nat) : String :=
  if n = 0 then "0" else String.mk (natStrCore n n)

/-- The numeric value of a string of decimal digit characters. -/
def strVal (s : String) : Nat :=
  Nat.ofDigits 10 ((s.data.map (fun c => c.toNat - 48)).reverse)

/-- The body of `generate_accountid`'s `while accountid is None` loop, run on
the already-checked-out connection `cid`. Per iteration `i`:
`accountid = str(random.randint(1_000_000_000, 9_999_999_999))` is modelled
as `natStr (rng i)`; the existence check is executed; on a `SQLAlchemyError`
the loop aborts and the error propagates; if a row was found the code first
clears `accountid = None`, then emits the retry span event whose `accountid`
attribute is the (already cleared) variable, and iterates; otherwise the
candidate is returned. -/
def genLoop (fail : Nat → Option DbError) (rng : Nat → Nat) (cid : Nat) :
    Nat → Nat → St → Except DbError (Option String) × St
  | 0, _, st => (Except.ok none, st)
  | fuel+1, i, st =>
    let accountid := natStr (rng i)
    let statement := Stmt.selectByAccountId accountid
    let p := execStmt fail cid statement st
    match p.fst with
    | Except.error e => (Except.error e, p.snd)
    | Except.ok result =>
      match result with
      | some _ =>
        let cleared : Option String := none
        let st2 : St := { p.snd with events := p.snd.events ++ [Event.retrySpanEvent cleared] }
        genLoop fail rng cid fuel (i+1) st2
      | none => (Except.ok (some accountid), p.snd)

/-- Embedding of `UserDb.generate_accountid()`: check out one connection, run the retry
loop on it (every existence check uses this same connection), release the
connection when the `with` block exits — normally or by exception — and
return the accepted candidate or re-raise the error unchanged. -/
def generate_accountid (fail : Nat → Option DbError) (rng : Nat → Nat) (fuel : Nat)
    (st : St) : Except DbError (Option String) × St :=
  let cid := st.conns
  let st1 : St := { st with conns := st.conns + 1, events := st.events ++ [Event.checkout cid] }
  let p := genLoop fail rng cid fuel 0 st1
  let st2 : St := { p.snd with events := p.snd.events ++ [Event.release cid] }
  (p.fst, st2)

/-- The always-healthy infrastructure oracle. -/
def noFail : Nat → Option DbError := fun _ => none

/-- Whether the table holds a row whose `accountid` column equals `a`. -/
def presentId (t : List Row) (a : String) : Bool :=
  t.any (rowMatchesStr "accountid" a)

/-- Whether the table holds a row whose `username` column equals `u`. -/
def presentUsername (t : List Row) (u : String) : Bool :=
  t.any (rowMatchesStr "username" u)

/-- Events the retry loop itself may append: statement executions on the
connection it was handed, and retry span events. -/
def loopEvent (cid : Nat) : Event → Bool
  | Event.exec c _ => c == cid
  | Event.retrySpanEvent _ => true
  | _ => false

/-- Recognizes the retry span event in a trace. -/
def isRetrySpanEvent : Event → Bool
  | Event.retrySpanEvent _ => true
  | _ => false

/-- The spec's concrete scenario row for user alice. -/
def rowA : Row :=
  [("accountid", Value.str "1234567890"), ("username", Value.str "alice"),
   ("passhash", Value.bytes [120]), ("firstname", Value.str "A"),
   ("lastname", Value.str "B"), ("birthday", Value.date 1990 1 1),
   ("timezone", Value.str "UTC"), ("address", Value.str "1 Rd"),
   ("state", Value.str "CA"), ("zip", Value.str "00000"),
   ("ssn", Value.str "000-00-0000")]

/-- A valid row with the same username as `rowA` but a different accountid. -/
def rowSameUsername : Row :=
  [("accountid", Value.str "9999999999"), ("username", Value.str "alice"),
   ("passhash", Value.bytes [121]), ("firstname", Value.str "C"),
   ("lastname", Value.str "D"), ("birthday", Value.date 1991 2 2),
   ("timezone", Value.str "UTC"), ("address", Value.str "2 Rd"),
   ("state", Value.str "NY"), ("zip", Value.str "11111"),
   ("ssn", Value.str "111-11-1111")]

/-- A valid row with the same accountid as `rowA` but a different username. -/
def rowSameAccountId : Row :=
  [("accountid", Value.str "1234567890"), ("username", Value.str "bob"),
   ("passhash", Value.bytes [122]), ("firstname", Value.str "E"),
   ("lastname", Value.str "F"), ("birthday", Value.date 1992 3 3),
   ("timezone", Value.str "UTC"), ("address", Value.str "3 Rd"),
   ("state", Value.str "WA"), ("zip", Value.str "22222"),
   ("ssn", Value.str "222-22-2222")]

/-- A fresh world with an empty table. -/
def stEmpty : St := { table := [], conns := 0, execs := 0, events := [] }

/-- A world whose table is pre-seeded with alice's row. -/
def stSeeded : St := { table := [rowA], conns := 0, execs := 0, events := [] }

/-- A mocked random source: first the seeded id 1234567890, then the fresh
id 1111111111. -/
def rngW : Nat → Nat := fun i => if i = 0 then 1234567890 else 1111111111

/-- Applying `natStrCore` to `0` gives the empty list, whatever the fuel. -/
theorem natStrCore_zero (fuel : Nat) : natStrCore fuel 0 = [] := by
  cases fuel <;> simp [natStrCore]

/-- With enough fuel, `natStrCore` produces the base-10 digits of `n`, most
significant first, as characters. -/
theorem natStrCore_eq_digits (n : Nat) : ∀ fuel, n ≤ fuel →
    natStrCore fuel n = (Nat.digits 10 n).reverse.map (fun d => Char.ofNat (48 + d)) := by
  induction n using Nat.strong_induction_on with
  | _ n ih =>
    intro fuel hle
    cases n with
    | zero => simp [natStrCore_zero]
    | succ m =>
      cases fuel with
      | zero => omega
      | succ f =>
        have hdiv : (m + 1) / 10 < m + 1 := Nat.div_lt_self (Nat.succ_pos m) (by norm_num)
        rw [Nat.digits_def' (by norm_num : (1 : Nat) < 10) (Nat.succ_pos m)]
        simp only [natStrCore, Nat.succ_ne_zero, if_false]
        rw [ih ((m + 1) / 10) hdiv f (by omega)]
        simp

/-- For positive `n`, `natStr n` is the digit characters of `n`. -/
theorem natStr_eq_digits (n : Nat) (h : n ≠ 0) :
    natStr n = String.mk ((Nat.digits 10 n).reverse.map (fun d => Char.ofNat (48 + d))) := by
  unfold natStr
  rw [if_neg h, natStrCore_eq_digits n n (Nat.le_refl n)]

/-- A digit character is an ASCII digit. -/
theorem char_digit_isDigit (d : Nat) (h : d < 10) : (Char.ofNat (48 + d)).isDigit = true := by
  interval_cases d <;> decide

/-- The code point of a digit character. -/
theorem char_digit_toNat (d : Nat) (h : d < 10) : (Char.ofNat (48 + d)).toNat = 48 + d := by
  interval_cases d <;> decide

/-- A ten-digit number renders as a string of length ten. -/
theorem natStr_length_of_range (n : Nat) (h1 : 1000000000 ≤ n) (h2 : n ≤ 9999999999) :
    (natStr n).length = 10 := by
  have hn : n ≠ 0 := by omega
  rw [natStr_eq_digits n hn]
  show ((Nat.digits 10 n).reverse.map (fun d => Char.ofNat (48 + d))).length = 10
  rw [List.length_map, List.length_reverse]
  rw [Nat.digits_len 10 n (by norm_num) hn]
  have hlog : Nat.log 10 n = 9 := by
    apply Nat.log_eq_of_pow_le_of_lt_pow
    · norm_num
      omega
    · norm_num
      omega
  omega

/-- Every character of `natStr n` is an ASCII digit. -/
theorem natStr_all_digits (n : Nat) : ∀ c ∈ (natStr n).data, c.isDigit = true := by
  intro c hc
  by_cases hn : n = 0
  · subst hn
    simp only [natStr, if_pos rfl] at hc
    have hc0 : c = '0' := by
      cases hc with
      | head => rfl
      | tail _ h => cases h
    rw [hc0]
    decide
  · rw [natStr_eq_digits n hn] at hc
    simp only [String.mk, List.mem_map, List.mem_reverse] at hc
    obtain ⟨d, hd, hcd⟩ := hc
    rw [← hcd]
    exact char_digit_isDigit d (Nat.digits_lt_base (by norm_num) hd)

/-- Parsing `natStr n` back recovers `n`. -/
theorem strVal_natStr (n : Nat) : strVal (natStr n) = n := by
  by_cases hn : n = 0
  · subst hn
    decide
  · rw [strVal, natStr_eq_digits n hn]
    show Nat.ofDigits 10
        ((((Nat.digits 10 n).reverse.map (fun d => Char.ofNat (48 + d))).map
          (fun c => c.toNat - 48)).reverse) = n
    rw [List.map_map]
    have hcongr : ((Nat.digits 10 n).reverse).map
          ((fun c => c.toNat - 48) ∘ (fun d => Char.ofNat (48 + d)))
        = ((Nat.digits 10 n).reverse).map (fun d => d) := by
      apply List.map_congr_left
      intro d hd
      have hdlt : d < 10 :=
        Nat.digits_lt_base (by norm_num) (List.mem_reverse.mp hd)
      simp only [Function.comp]
      rw [char_digit_toNat d hdlt]
      omega
    rw [hcongr, List.map_id', List.reverse_reverse, Nat.ofDigits_digits]

/-- One loop iteration whose existence check raises an infrastructure error:
the loop aborts with that very error. -/
theorem genLoop_step_fail (fail : Nat → Option DbError) (rng : Nat → Nat) (cid : Nat)
    (fuel i : Nat) (st : St) (e : DbError) (hf : fail st.execs = some e) :
    genLoop fail rng cid (fuel + 1) i st
      = (Except.error e,
         { st with execs := st.execs + 1,
                   events := st.events
                     ++ [Event.exec cid (Stmt.selectByAccountId (natStr (rng i)))] }) := by
  simp only [genLoop, execStmt, runStmt, hf]

/-- One loop iteration whose candidate is absent from the table: the loop
returns that candidate. -/
theorem genLoop_step_absent (fail : Nat → Option DbError) (rng : Nat → Nat) (cid : Nat)
    (fuel i : Nat) (st : St) (hf : fail st.execs = none)
    (hp : presentId st.table (natStr (rng i)) = false) :
    genLoop fail rng cid (fuel + 1) i st
      = (Except.ok (some (natStr (rng i))),
         { st with execs := st.execs + 1,
                   events := st.events
                     ++ [Event.exec cid (Stmt.selectByAccountId (natStr (rng i)))] }) := by
  have hfind : st.table.find? (rowMatchesStr "accountid" (natStr (rng i))) = none :=
    List.find?_eq_none.mpr (List.any_eq_false.mp hp)
  simp only [genLoop, execStmt, runStmt, hf, hfind]

/-- One loop iteration whose candidate is already present: the variable is
cleared, the retry span event is emitted with the cleared value, and the
loop runs on. -/
theorem genLoop_step_present (fail : Nat → Option DbError) (rng : Nat → Nat) (cid : Nat)
    (fuel i : Nat) (st : St) (hf : fail st.execs = none)
    (hp : presentId st.table (natStr (rng i)) = true) :
    genLoop fail rng cid (fuel + 1) i st
      = genLoop fail rng cid fuel (i + 1)
          { st with execs := st.execs + 1,
                    events := st.events
                      ++ [Event.exec cid (Stmt.selectByAccountId (natStr (rng i))),
                          Event.retrySpanEvent none] } := by
  obtain ⟨x, hx, hpx⟩ := List.any_eq_true.mp hp
  obtain ⟨r, hr⟩ : ∃ r, st.table.find? (rowMatchesStr "accountid" (natStr (rng i))) = some r := by
    cases hfd : st.table.find? (rowMatchesStr "accountid" (natStr (rng i))) with
    | some r => exact ⟨r, rfl⟩
    | none => exact absurd hpx (List.find?_eq_none.mp hfd x hx)
  simp only [genLoop, execStmt, runStmt, hf, hr]
  simp [List.append_assoc]

/-- The retry loop never modifies the table: it only runs selects. -/
theorem genLoop_table_preserved (fail : Nat → Option DbError) (rng : Nat → Nat) (cid : Nat) :
    ∀ fuel i st, (genLoop fail rng cid fuel i st).snd.table = st.table := by
  intro fuel
  induction fuel with
  | zero => intro i st; rfl
  | succ f ih =>
    intro i st
    cases hf : fail st.execs with
    | some e => rw [genLoop_step_fail fail rng cid f i st e hf]
    | none =>
      cases hp : presentId st.table (natStr (rng i)) with
      | false => rw [genLoop_step_absent fail rng cid f i st hf hp]
      | true =>
        rw [genLoop_step_present fail rng cid f i st hf hp]
        rw [ih]

/-- If the loop returns a candidate, that candidate was checked and found
absent from the table, and it came from the random stream. -/
theorem genLoop_ok_some (fail : Nat → Option DbError) (rng : Nat → Nat) (cid : Nat) :
    ∀ fuel i st s, (genLoop fail rng cid fuel i st).fst = Except.ok (some s) →
      presentId st.table s = false ∧ ∃ j, s = natStr (rng j) := by
  intro fuel
  induction fuel with
  | zero =>
    intro i st s h
    simp [genLoop] at h
  | succ f ih =>
    intro i st s h
    cases hf : fail st.execs with
    | some e =>
      rw [genLoop_step_fail fail rng cid f i st e hf] at h
      exact absurd h (by simp)
    | none =>
      cases hp : presentId st.table (natStr (rng i)) with
      | false =>
        rw [genLoop_step_absent fail rng cid f i st hf hp] at h
        have hs : natStr (rng i) = s := Option.some.inj (Except.ok.inj h)
        rw [← hs]
        exact ⟨hp, i, rfl⟩
      | true =>
        rw [genLoop_step_present fail rng cid f i st hf hp] at h
        have h2 := ih (i + 1) _ s h
        simpa using h2

/-- If the first `m` candidates are present and the oracle is healthy up to
and including iteration `m`, where the candidate is absent, the loop returns
exactly that candidate. -/
theorem genLoop_first_absent (fail : Nat → Option DbError) (rng : Nat → Nat) (cid : Nat) :
    ∀ m fuel i st, m < fuel →
      (∀ j, j ≤ m → fail (st.execs + j) = none) →
      (∀ j, j < m → presentId st.table (natStr (rng (i + j))) = true) →
      presentId st.table (natStr (rng (i + m))) = false →
      (genLoop fail rng cid fuel i st).fst = Except.ok (some (natStr (rng (i + m)))) := by
  intro m
  induction m with
  | zero =>
    intro fuel i st hlt hf hp hpm
    cases fuel with
    | zero => omega
    | succ f =>
      have hf0 : fail st.execs = none := by simpa using hf 0 (by omega)
      have hp0 : presentId st.table (natStr (rng i)) = false := by simpa using hpm
      rw [genLoop_step_absent fail rng cid f i st hf0 hp0]
      simp
  | succ m ih =>
    intro fuel i st hlt hf hp hpm
    cases fuel with
    | zero => omega
    | succ f =>
      have hf0 : fail st.execs = none := by simpa using hf 0 (by omega)
      have hp0 : presentId st.table (natStr (rng i)) = true := by simpa using hp 0 (by omega)
      rw [genLoop_step_present fail rng cid f i st hf0 hp0]
      have hres := ih f (i + 1)
        { st with execs := st.execs + 1,
                  events := st.events
                    ++ [Event.exec cid (Stmt.selectByAccountId (natStr (rng i))),
                        Event.retrySpanEvent none] }
        (by omega)
        (by intro j hj
            have h2 := hf (j + 1) (by omega)
            have heq : st.execs + (j + 1) = st.execs + 1 + j := by omega
            rw [heq] at h2
            exact h2)
        (by intro j hj
            have h2 := hp (j + 1) (by omega)
            have heq : i + (j + 1) = i + 1 + j := by omega
            rw [heq] at h2
            exact h2)
        (by have heq : i + (m + 1) = i + 1 + m := by omega
            rw [heq] at hpm
            exact hpm)
      have heq : i + 1 + m = i + (m + 1) := by omega
      rw [heq] at hres
      exact hres

/-- If the first `m` candidates are present, the oracle is healthy strictly
before iteration `m`, and the existence check of iteration `m` raises, the
loop aborts with exactly that error. -/
theorem genLoop_reaches_fail (fail : Nat → Option DbError) (rng : Nat → Nat) (cid : Nat) :
    ∀ m fuel i st e, m < fuel →
      (∀ j, j < m → fail (st.execs + j) = none) →
      (∀ j, j < m → presentId st.table (natStr (rng (i + j))) = true) →
      fail (st.execs + m) = some e →
      (genLoop fail rng cid fuel i st).fst = Except.error e := by
  intro m
  induction m with
  | zero =>
    intro fuel i st e hlt hf hp hfm
    cases fuel with
    | zero => omega
    | succ f =>
      have hf0 : fail st.execs = some e := by simpa using hfm
      rw [genLoop_step_fail fail rng cid f i st e hf0]
  | succ m ih =>
    intro fuel i st e hlt hf hp hfm
    cases fuel with
    | zero => omega
    | succ f =>
      have hf0 : fail st.execs = none := by simpa using hf 0 (by omega)
      have hp0 : presentId st.table (natStr (rng i)) = true := by simpa using hp 0 (by omega)
      rw [genLoop_step_present fail rng cid f i st hf0 hp0]
      exact ih f (i + 1)
        { st with execs := st.execs + 1,
                  events := st.events
                    ++ [Event.exec cid (Stmt.selectByAccountId (natStr (rng i))),
                        Event.retrySpanEvent none] }
        e
        (by omega)
        (by intro j hj
            have h2 := hf (j + 1) (by omega)
            have heq : st.execs + (j + 1) = st.execs + 1 + j := by omega
            rw [heq] at h2
            exact h2)
        (by intro j hj
            have h2 := hp (j + 1) (by omega)
            have heq : i + (j + 1) = i + 1 + j := by omega
            rw [heq] at h2
            exact h2)
        (by have heq : st.execs + (m + 1) = st.execs + 1 + m := by omega
            rw [heq] at hfm
            exact hfm)

/-- If every candidate the stream can produce is already present, the loop
exhausts any amount of fuel without returning. -/
theorem genLoop_all_present (rng : Nat → Nat) (cid : Nat) (t : List Row)
    (hp : ∀ j, presentId t (natStr (rng j)) = true) :
    ∀ fuel i st, st.table = t → (genLoop noFail rng cid fuel i st).fst = Except.ok none := by
  intro fuel
  induction fuel with
  | zero => intro i st ht; rfl
  | succ f ih =>
    intro i st ht
    have hf0 : noFail st.execs = none := rfl
    have hp0 : presentId st.table (natStr (rng i)) = true := by rw [ht]; exact hp i
    rw [genLoop_step_present noFail rng cid f i st hf0 hp0]
    exact ih (i + 1) _ (by simpa using ht)

/-- Every event the loop appends is an execution on its own connection or a
retry span event. -/
theorem genLoop_events (fail : Nat → Option DbError) (rng : Nat → Nat) (cid : Nat) :
    ∀ fuel i st, ∃ tr, (genLoop fail rng cid fuel i st).snd.events = st.events ++ tr
      ∧ ∀ e ∈ tr, loopEvent cid e = true := by
  intro fuel
  induction fuel with
  | zero => intro i st; exact ⟨[], by simp [genLoop], by simp⟩
  | succ f ih =>
    intro i st
    cases hf : fail st.execs with
    | some e =>
      rw [genLoop_step_fail fail rng cid f i st e hf]
      refine ⟨[Event.exec cid (Stmt.selectByAccountId (natStr (rng i)))], by simp, ?_⟩
      intro ev hev
      simp at hev
      rw [hev]
      simp [loopEvent]
    | none =>
      cases hp : presentId st.table (natStr (rng i)) with
      | false =>
        rw [genLoop_step_absent fail rng cid f i st hf hp]
        refine ⟨[Event.exec cid (Stmt.selectByAccountId (natStr (rng i)))], by simp, ?_⟩
        intro ev hev
        simp at hev
        rw [hev]
        simp [loopEvent]
      | true =>
        rw [genLoop_step_present fail rng cid f i st hf hp]
        obtain ⟨tr, htr, hall⟩ := ih (i + 1)
          { st with execs := st.execs + 1,
                    events := st.events
                      ++ [Event.exec cid (Stmt.selectByAccountId (natStr (rng i))),
                          Event.retrySpanEvent none] }
        refine ⟨[Event.exec cid (Stmt.selectByAccountId (natStr (rng i))),
                 Event.retrySpanEvent none] ++ tr, ?_, ?_⟩
        · rw [htr]
          simp
        · intro ev hev
          rcases List.mem_append.mp hev with h1 | h2
          · simp at h1
            rcases h1 with h1 | h1
            · rw [h1]; simp [loopEvent]
            · rw [h1]; simp [loopEvent]
          · exact hall ev h2

/-- Full evaluation of `add_user`: one checkout, one execution of the insert
statement built from the unchanged mapping, one release; the outcome and the
table are exactly what the oracle and the engine dictate. -/
theorem add_user_eval (fail : Nat → Option DbError) (u : Row) (st : St) :
    add_user fail u st
      = ((match fail st.execs with
          | some e => Except.error e
          | none =>
            match insertRow st.table u with
            | Except.error e => Except.error e
            | Except.ok _ => Except.ok ()),
         { st with
             conns := st.conns + 1,
             execs := st.execs + 1,
             table :=
               (match fail st.execs with
                | some _ => st.table
                | none =>
                  match insertRow st.table u with
                  | Except.error _ => st.table
                  | Except.ok t2 => t2),
             events := st.events
               ++ [Event.checkout st.conns,
                   Event.exec st.conns (Stmt.insertUsers u),
                   Event.release st.conns] }) := by
  cases hf : fail st.execs with
  | some e => simp [add_user, execStmt, runStmt, hf]
  | none =>
    cases hr : insertRow st.table u with
    | error e => simp [add_user, execStmt, runStmt, hf, hr]
    | ok t2 => simp [add_user, execStmt, runStmt, hf, hr]

/-- Full evaluation of `get_user`: one checkout, one execution of the select
statement, one release; on healthy execution the result is the first row
whose `username` matches, wrapped as an explicit absence/presence value. -/
theorem get_user_eval (fail : Nat → Option DbError) (un : String) (st : St) :
    get_user fail un st
      = ((match fail st.execs with
          | some e => Except.error e
          | none => Except.ok (st.table.find? (rowMatchesStr "username" un))),
         { st with
             conns := st.conns + 1,
             execs := st.execs + 1,
             events := st.events
               ++ [Event.checkout st.conns,
                   Event.exec st.conns (Stmt.selectByUsername un),
                   Event.release st.conns] }) := by
  cases hf : fail st.execs with
  | some e => simp [get_user, execStmt, runStmt, hf]
  | none => simp [get_user, execStmt, runStmt, hf]

/-- Running `find?` on a list extended with a matching element, none of whose
predecessors match, returns that element. -/
theorem find?_append_match (p : Row → Bool) (t : List Row) (u : Row)
    (h : ∀ r ∈ t, p r = false) (hu : p u = true) :
    (t ++ [u]).find? p = some u := by
  rw [List.find?_append]
  have hnone : t.find? p = none := List.find?_eq_none.mpr (by
    intro x hx
    simp [h x hx])
  rw [hnone]
  simp [List.find?, hu]

/-- The four constraint checks of `insertRow` pass for a valid fresh row. -/
theorem insertRow_ok (t : List Row) (u : Row)
    (hkeys : ∀ p ∈ u, colNames.contains p.fst = true)
    (hnn : ∀ c ∈ notNullColumns, isNotNull (lookupField u c) = true)
    (hid : ∀ r ∈ t, (lookupField r "accountid" == lookupField u "accountid") = false)
    (hun : ∀ r ∈ t, (lookupField r "username" == lookupField u "username") = false) :
    insertRow t u = Except.ok (t ++ [u]) := by
  unfold insertRow
  rw [if_neg, if_neg, if_neg, if_neg]
  · simp only [List.any_eq_true, not_exists]
    intro r
    intro h
    rcases h with ⟨hr, hcontra⟩
    rw [hun r hr] at hcontra
    exact absurd hcontra (by simp)
  · simp only [List.any_eq_true, not_exists]
    intro r
    intro h
    rcases h with ⟨hr, hcontra⟩
    rw [hid r hr] at hcontra
    exact absurd hcontra (by simp)
  · rw [List.all_eq_true.mpr hnn]
    simp
  · rw [List.all_eq_true.mpr hkeys]
    simp

/-- A valid row clashing with the table on `accountid` or on `username` is
rejected by the engine with the distinguished duplicate-key error. -/
theorem insertRow_duplicate (t : List Row) (u2 : Row)
    (hkeys2 : ∀ p ∈ u2, colNames.contains p.fst = true)
    (hnn2 : ∀ c ∈ notNullColumns, isNotNull (lookupField u2 c) = true)
    (hclash : (∃ r ∈ t, lookupField r "accountid" = lookupField u2 "accountid")
      ∨ (∃ r ∈ t, lookupField r "username" = lookupField u2 "username")) :
    insertRow t u2 = Except.error DbError.duplicateKey := by
  unfold insertRow
  rw [if_neg (by rw [List.all_eq_true.mpr hkeys2]; simp)]
  rw [if_neg (by rw [List.all_eq_true.mpr hnn2]; simp)]
  cases c3 : t.any (fun r => lookupField r "accountid" == lookupField u2 "accountid") with
  | true => simp
  | false =>
    have c4 : t.any (fun r => lookupField r "username" == lookupField u2 "username") = true := by
      rcases hclash with ⟨r, hr, heq⟩ | ⟨r, hr, heq⟩
      · exact absurd (by simp [heq]) (List.any_eq_false.mp c3 r hr)
      · exact List.any_eq_true.mpr ⟨r, hr, by simp [heq]⟩
    simp [c4]

/-- C1: a field mapping supplying all not-null columns of the `users` schema,
whose accountid and username values are not already present in the table, is
inserted by `add_user` without error, and `get_user` on the same username
then returns exactly the inserted field mapping. -/
theorem add_user_then_get_user_roundtrip (st : St) (u : Row) (uname : String)
    (hkeys : ∀ p ∈ u, colNames.contains p.fst = true)
    (hnn : ∀ c ∈ notNullColumns, isNotNull (lookupField u c) = true)
    (huname : lookupField u "username" = some (Value.str uname))
    (hid : ∀ r ∈ st.table, (lookupField r "accountid" == lookupField u "accountid") = false)
    (hun : ∀ r ∈ st.table, (lookupField r "username" == lookupField u "username") = false) :
    (add_user noFail u st).fst = Except.ok ()
      ∧ (get_user noFail uname (add_user noFail u st).snd).fst = Except.ok (some u) := by
  have hins := insertRow_ok st.table u hkeys hnn hid hun
  have hmatch : rowMatchesStr "username" uname u = true := by
    simp [rowMatchesStr, huname]
  have hnone : ∀ r ∈ st.table, rowMatchesStr "username" uname r = false := by
    intro r hr
    have h2 := hun r hr
    rw [huname] at h2
    simpa [rowMatchesStr] using h2
  have hfind := find?_append_match (rowMatchesStr "username" uname) st.table u hnone hmatch
  constructor
  · rw [add_user_eval]
    simp [noFail, hins]
  · rw [add_user_eval, get_user_eval]
    simp [noFail, hins, hfind]

/-- Witness for C1: the spec's concrete alice row over the empty table. -/
theorem add_user_then_get_user_roundtrip_witness :
    (add_user noFail rowA stEmpty).fst = Except.ok ()
      ∧ (get_user noFail "alice" (add_user noFail rowA stEmpty).snd).fst
          = Except.ok (some rowA) :=
  add_user_then_get_user_roundtrip stEmpty rowA "alice" (by decide) (by decide) (by decide)
    (by decide) (by decide)

/-- C4: `get_user` on a username with no matching row returns the explicit
absence value, not an error, and on a username with a matching row returns
the first matching row as a field mapping. -/
theorem get_user_absent_or_first_match (st : St) (uname : String) :
    ((∀ r ∈ st.table, rowMatchesStr "username" uname r = false) →
        (get_user noFail uname st).fst = Except.ok none)
      ∧ (∀ r, st.table.find? (rowMatchesStr "username" uname) = some r →
          (get_user noFail uname st).fst = Except.ok (some r)) := by
  constructor
  · intro h
    have hnone : st.table.find? (rowMatchesStr "username" uname) = none :=
      List.find?_eq_none.mpr (by intro x hx; simp [h x hx])
    rw [get_user_eval]
    simp [noFail, hnone]
  · intro r hr
    rw [get_user_eval]
    simp [noFail, hr]

/-- Witness for C4: bob is absent from the seeded table, alice is present. -/
theorem get_user_absent_or_first_match_witness :
    (get_user noFail "bob" stSeeded).fst = Except.ok none
      ∧ (get_user noFail "alice" stSeeded).fst = Except.ok (some rowA) :=
  ⟨(get_user_absent_or_first_match stSeeded "bob").1 (by decide),
   (get_user_absent_or_first_match stSeeded "alice").2 rowA (by decide)⟩

/-- C10: `add_user` performs no validation of its own: whatever the mapping
(missing columns, unknown keys, malformed accountid included), the single
statement it executes is the INSERT carrying the mapping unchanged, and the
outcome is exactly the verdict of the infrastructure oracle and the engine's
constraints. -/
theorem add_user_no_validation (fail : Nat → Option DbError) (u : Row) (st : St) :
    (add_user fail u st).snd.events
        = st.events ++ [Event.checkout st.conns,
            Event.exec st.conns (Stmt.insertUsers u),
            Event.release st.conns]
      ∧ (add_user fail u st).fst
          = (match fail st.execs with
             | some e => Except.error e
             | none =>
               match insertRow st.table u with
               | Except.error e => Except.error e
               | Except.ok _ => Except.ok ()) := by
  rw [add_user_eval]
  exact ⟨rfl, rfl⟩

/-- C2: under the randint contract (every draw lies in
[1000000000, 9999999999]) each account id returned normally by
`generate_accountid` is a string of exactly ten ASCII digits whose numeric
value lies in [1000000000, 9999999999]. -/
theorem generate_accountid_ten_digits (fail : Nat → Option DbError) (rng : Nat → Nat)
    (fuel : Nat) (st : St) (s : String)
    (hr : ∀ i, 1000000000 ≤ rng i ∧ rng i ≤ 9999999999)
    (h : (generate_accountid fail rng fuel st).fst = Except.ok (some s)) :
    s.length = 10 ∧ (∀ c ∈ s.data, c.isDigit = true)
      ∧ 1000000000 ≤ strVal s ∧ strVal s ≤ 9999999999 := by
  have h2 : (genLoop fail rng st.conns fuel 0
      { st with conns := st.conns + 1,
                events := st.events ++ [Event.checkout st.conns] }).fst
      = Except.ok (some s) := by
    unfold generate_accountid at h
    simpa using h
  obtain ⟨-, j, hj⟩ := genLoop_ok_some fail rng st.conns fuel 0
    { st with conns := st.conns + 1,
              events := st.events ++ [Event.checkout st.conns] } s h2
  obtain ⟨hlo, hhi⟩ := hr j
  subst hj
  refine ⟨natStr_length_of_range (rng j) hlo hhi, natStr_all_digits (rng j), ?_, ?_⟩
  · rw [strVal_natStr]
    exact hlo
  · rw [strVal_natStr]
    exact hhi

/-- Witness for C2: a constant in-range random source over the empty table. -/
theorem generate_accountid_ten_digits_witness :
    (natStr 1234567890).length = 10
      ∧ (∀ c ∈ (natStr 1234567890).data, c.isDigit = true)
      ∧ 1000000000 ≤ strVal (natStr 1234567890)
      ∧ strVal (natStr 1234567890) ≤ 9999999999 :=
  generate_accountid_ten_digits noFail (fun _ => 1234567890) 1 stEmpty
    (natStr 1234567890) (by intro i; constructor <;> norm_num) (by rfl)

/-- C3: an account id returned normally by `generate_accountid` was observed
absent from the table by that call's existence check; concretely, with the
table pre-seeded with id 1234567890 and the random source producing
1234567890 and then the fresh 1111111111, the call returns the fresh value,
never the seeded one. -/
theorem generate_accountid_avoids_existing :
    (∀ fail rng fuel st s,
        (generate_accountid fail rng fuel st).fst = Except.ok (some s) →
        presentId st.table s = false)
      ∧ (generate_accountid noFail rngW 2 stSeeded).fst = Except.ok (some "1111111111")
      ∧ presentId stSeeded.table "1234567890" = true := by
  refine ⟨?_, by rfl, by decide⟩
  intro fail rng fuel st s h
  have h2 : (genLoop fail rng st.conns fuel 0
      { st with conns := st.conns + 1,
                events := st.events ++ [Event.checkout st.conns] }).fst
      = Except.ok (some s) := by
    unfold generate_accountid at h
    simpa using h
  have h3 := genLoop_ok_some fail rng st.conns fuel 0
    { st with conns := st.conns + 1,
              events := st.events ++ [Event.checkout st.conns] } s h2
  simpa using h3.1

/-- Witness for C3: the fresh id of the concrete scenario is indeed absent
from the seeded table. -/
theorem generate_accountid_avoids_existing_witness :
    presentId stSeeded.table "1111111111" = false :=
  generate_accountid_avoids_existing.1 noFail rngW 2 stSeeded "1111111111" (by rfl)

/-- C5: database-level errors propagate unchanged: `add_user` and `get_user`
re-raise the error of their statement execution as is, and
`generate_accountid` — which iterates only past candidates its existence
check saw as present — aborts with the exact error of the failing existence
check, with no further loop iteration. -/
theorem errors_propagate_unchanged :
    (∀ fail u st e, fail st.execs = some e →
        (add_user fail u st).fst = Except.error e)
      ∧ (∀ fail uname st e, fail st.execs = some e →
          (get_user fail uname st).fst = Except.error e)
      ∧ (∀ fail rng st m fuel e, m < fuel →
          (∀ j, j < m → fail (st.execs + j) = none) →
          (∀ j, j < m → presentId st.table (natStr (rng j)) = true) →
          fail (st.execs + m) = some e →
          (generate_accountid fail rng fuel st).fst = Except.error e) := by
  refine ⟨?_, ?_, ?_⟩
  · intro fail u st e hf
    rw [add_user_eval]
    simp [hf]
  · intro fail uname st e hf
    rw [get_user_eval]
    simp [hf]
  · intro fail rng st m fuel e hm hf hp hfm
    have hres := genLoop_reaches_fail fail rng st.conns m fuel 0
      { st with conns := st.conns + 1,
                events := st.events ++ [Event.checkout st.conns] } e
      hm
      (by intro j hj; simpa using hf j hj)
      (by intro j hj; simpa using hp j hj)
      (by simpa using hfm)
    unfold generate_accountid
    simpa using hres

/-- Witness for C5: a constant failing oracle for the single-statement
operations, and an oracle healthy on the first existence check but failing
on the second, after a duplicate hit. -/
theorem errors_propagate_unchanged_witness :
    (add_user (fun _ => some (DbError.infra 5)) rowA stEmpty).fst
        = Except.error (DbError.infra 5)
      ∧ (get_user (fun _ => some (DbError.infra 5)) "alice" stEmpty).fst
          = Except.error (DbError.infra 5)
      ∧ (generate_accountid (fun k => if k = 1 then some (DbError.infra 7) else none)
            rngW 3 stSeeded).fst = Except.error (DbError.infra 7) :=
  ⟨errors_propagate_unchanged.1 (fun _ => some (DbError.infra 5)) rowA stEmpty
      (DbError.infra 5) rfl,
   errors_propagate_unchanged.2.1 (fun _ => some (DbError.infra 5)) "alice" stEmpty
      (DbError.infra 5) rfl,
   errors_propagate_unchanged.2.2 (fun k => if k = 1 then some (DbError.infra 7) else none)
      rngW stSeeded 1 3 (DbError.infra 7) (by omega)
      (by intro j hj
          interval_cases j
          decide)
      (by intro j hj
          interval_cases j
          decide)
      (by decide)⟩

/-- C6: after a first successful `add_user`, a second `add_user` whose valid
mapping reuses the username (or the accountid) fails with the distinguished
duplicate-key error, the table still holds exactly the first row, and
`get_user` still returns it. -/
theorem add_user_duplicate_key (st : St) (u u2 : Row) (uname : String)
    (hkeys : ∀ p ∈ u, colNames.contains p.fst = true)
    (hnn : ∀ c ∈ notNullColumns, isNotNull (lookupField u c) = true)
    (huname : lookupField u "username" = some (Value.str uname))
    (hid : ∀ r ∈ st.table, (lookupField r "accountid" == lookupField u "accountid") = false)
    (hun : ∀ r ∈ st.table, (lookupField r "username" == lookupField u "username") = false)
    (hkeys2 : ∀ p ∈ u2, colNames.contains p.fst = true)
    (hnn2 : ∀ c ∈ notNullColumns, isNotNull (lookupField u2 c) = true) :
    ((lookupField u2 "username" = lookupField u "username") →
        (add_user noFail u2 (add_user noFail u st).snd).fst
            = Except.error DbError.duplicateKey
          ∧ (add_user noFail u2 (add_user noFail u st).snd).snd.table = st.table ++ [u]
          ∧ (get_user noFail uname
                (add_user noFail u2 (add_user noFail u st).snd).snd).fst
              = Except.ok (some u))
      ∧ ((lookupField u2 "accountid" = lookupField u "accountid") →
          (add_user noFail u2 (add_user noFail u st).snd).fst
              = Except.error DbError.duplicateKey) := by
  have hins := insertRow_ok st.table u hkeys hnn hid hun
  have htable1 : (add_user noFail u st).snd.table = st.table ++ [u] := by
    rw [add_user_eval]
    simp [noFail, hins]
  constructor
  · intro hclash
    have hdup : insertRow (st.table ++ [u]) u2
        = Except.error DbError.duplicateKey := by
      apply insertRow_duplicate _ _ hkeys2 hnn2
      right
      exact ⟨u, by simp, hclash.symm⟩
    have hmatch : rowMatchesStr "username" uname u = true := by
      simp [rowMatchesStr, huname]
    have hnone : ∀ r ∈ st.table, rowMatchesStr "username" uname r = false := by
      intro r hr
      have h2 := hun r hr
      rw [huname] at h2
      simpa [rowMatchesStr] using h2
    have hfind := find?_append_match (rowMatchesStr "username" uname) st.table u hnone hmatch
    have htable2 : (add_user noFail u2 (add_user noFail u st).snd).snd.table
        = st.table ++ [u] := by
      rw [add_user_eval noFail u2 (add_user noFail u st).snd]
      simp [noFail, htable1, hdup]
    refine ⟨?_, htable2, ?_⟩
    · rw [add_user_eval noFail u2 (add_user noFail u st).snd]
      simp [noFail, htable1, hdup]
    · rw [get_user_eval]
      simp [noFail, htable2, hfind]
  · intro hclash
    have hdup : insertRow (st.table ++ [u]) u2
        = Except.error DbError.duplicateKey := by
      apply insertRow_duplicate _ _ hkeys2 hnn2
      left
      exact ⟨u, by simp, hclash.symm⟩
    rw [add_user_eval noFail u2 (add_user noFail u st).snd]
    simp [noFail, htable1, hdup]

/-- Witness for C6: alice's row, then a clash on username and a clash on
accountid, over the empty table. -/
theorem add_user_duplicate_key_witness :
    (add_user noFail rowSameUsername (add_user noFail rowA stEmpty).snd).fst
        = Except.error DbError.duplicateKey
      ∧ (add_user noFail rowSameUsername (add_user noFail rowA stEmpty).snd).snd.table
          = stEmpty.table ++ [rowA]
      ∧ (get_user noFail "alice"
            (add_user noFail rowSameUsername (add_user noFail rowA stEmpty).snd).snd).fst
          = Except.ok (some rowA)
      ∧ (add_user noFail rowSameAccountId (add_user noFail rowA stEmpty).snd).fst
          = Except.error DbError.duplicateKey :=
  have h1 := (add_user_duplicate_key stEmpty rowA rowSameUsername "alice"
      (by decide) (by decide) (by decide) (by decide) (by decide)
      (by decide) (by decide)).1 (by decide)
  have h2 := (add_user_duplicate_key stEmpty rowA rowSameAccountId "alice"
      (by decide) (by decide) (by decide) (by decide) (by decide)
      (by decide) (by decide)).2 (by decide)
  ⟨h1.1, h1.2.1, h1.2.2, h2⟩

/-- C7: the retry loop has no iteration cap: over a stream of candidates the
call returns the first candidate absent from the table, and if every
candidate in the stream is present the call returns normally under no amount
of fuel. -/
theorem generate_accountid_unbounded (rng : Nat → Nat) (st : St) :
    (∀ m fuel, m < fuel →
        (∀ j, j < m → presentId st.table (natStr (rng j)) = true) →
        presentId st.table (natStr (rng m)) = false →
        (generate_accountid noFail rng fuel st).fst
          = Except.ok (some (natStr (rng m))))
      ∧ ((∀ j, presentId st.table (natStr (rng j)) = true) →
          ∀ fuel, (generate_accountid noFail rng fuel st).fst = Except.ok none) := by
  constructor
  · intro m fuel hm hp hpm
    have hres := genLoop_first_absent noFail rng st.conns m fuel 0
      { st with conns := st.conns + 1,
                events := st.events ++ [Event.checkout st.conns] }
      hm (fun j hj => rfl)
      (by intro j hj; simpa using hp j hj)
      (by simpa using hpm)
    unfold generate_accountid
    simpa using hres
  · intro hp fuel
    have hres := genLoop_all_present rng st.conns st.table hp fuel 0
      { st with conns := st.conns + 1,
                events := st.events ++ [Event.checkout st.conns] }
      (by simp)
    unfold generate_accountid
    simpa using hres

/-- Witness for C7: the mocked stream returns its second candidate over the
seeded table, and a stream stuck on the seeded id never returns. -/
theorem generate_accountid_unbounded_witness :
    (generate_accountid noFail rngW 2 stSeeded).fst
        = Except.ok (some (natStr (rngW 1)))
      ∧ (generate_accountid noFail (fun _ => 1234567890) 5 stSeeded).fst
          = Except.ok none :=
  ⟨(generate_accountid_unbounded rngW stSeeded).1 1 2 (by omega)
      (by intro j hj
          interval_cases j
          decide)
      (by decide),
   (generate_accountid_unbounded (fun _ => 1234567890) stSeeded).2
      (by intro j; decide) 5⟩

/-- C8: within one `generate_accountid` call, every existence check of every
retry iteration executes on the single connection checked out at the start,
and that connection is held until the final release: the call appends one
checkout, then only executions on that same connection interleaved with
retry span events, then the release, with no other checkout or release. -/
theorem generate_accountid_single_connection (fail : Nat → Option DbError)
    (rng : Nat → Nat) (fuel : Nat) (st : St) :
    ∃ tr, (generate_accountid fail rng fuel st).snd.events
        = st.events ++ Event.checkout st.conns :: (tr ++ [Event.release st.conns])
      ∧ ∀ e ∈ tr, loopEvent st.conns e = true := by
  obtain ⟨tr, htr, hall⟩ := genLoop_events fail rng st.conns fuel 0
    { st with conns := st.conns + 1,
              events := st.events ++ [Event.checkout st.conns] }
  refine ⟨tr, ?_, hall⟩
  unfold generate_accountid
  simp [htr]

/-- C9: at the failing input — table seeded with id 1234567890 and a random
source producing 1234567890 then 1111111111 — the single retry span event in
the trace carries the already-cleared accountid attribute (none), not the
rejected candidate "1234567890". -/
theorem retry_span_event_carries_cleared_value :
    ((generate_accountid noFail rngW 2 stSeeded).snd.events.filter isRetrySpanEvent)
        = [Event.retrySpanEvent none]
      ∧ Event.retrySpanEvent (none : Option String)
          ≠ Event.retrySpanEvent (some "1234567890") := by
  decide
